import Mathlib

/-!
Verification development for the TextBuddy bot (src/main.py).

The program is a Telegram front end for an Ollama inference backend.  We give a
shallow embedding of its handler functions: texts are lists of characters,
the per-user model selection dictionary is an explicit store argument, the
external Ollama client calls are oracle arguments of Except type, and each
handler returns the list of messages it sends together with its outcome
(returned value or uncaught exception).
-/

/-- Chat types as used by the bot; only privacy of the chat matters
(main.py line 49 compares against Chat.PRIVATE). -/
inductive ChatType where
  | privateChat
  | groupChat
  | supergroupChat
  | channelChat
deriving DecidableEq

/-- User identifiers (update.effective_user.id, query.from_user.id). -/
abbrev UserId := Nat

/-- Embedding of a Telegram message: its chat type and its text. -/
structure Message where
  chatType : ChatType
  text : List Char
deriving DecidableEq

/-- Embedding of a callback query: the message it is attached to (possibly
absent), its data payload and the issuing user. -/
structure CallbackQuery where
  message : Option Message
  data : List Char
  from_user : UserId
deriving DecidableEq

/-- Embedding of a Telegram update: an optional message, an optional callback
query and the effective user. -/
structure Update where
  message : Option Message
  callbackQuery : Option CallbackQuery
  effectiveUser : UserId
deriving DecidableEq

/-- The global user_active_models dictionary (main.py line 166), as a map from
user id to the optionally selected model name. -/
abbrev SessionStore := UserId → Option (List Char)

/-- Outcome of running a handler: it returned None, returned a conversation
state, or raised an uncaught exception. -/
inductive Outcome where
  | completed
  | returned (state : Int)
  | raised
deriving DecidableEq

/-- ConversationHandler.END of python-telegram-bot. -/
def END : Int := -1

/-- Conversation state constant ASKING_MODEL = 1 (main.py line 163). -/
def ASKING_MODEL : Int := 1

/-- Fuel-driven core of Python range(start, stop, step): emits start,
start + step, ... while below stop.  The fuel only bounds the recursion; a
fuel of at least stop - start is always sufficient when step is at least 1. -/
def pyRangeGo (stop step : Nat) : Nat → Nat → List Nat
  | 0, _ => []
  | fuel + 1, start =>
      if start < stop then start :: pyRangeGo stop step fuel (start + step) else []

/-- Python range(start, stop, step) for a positive step.  A zero step raises
ValueError in Python and never occurs in this program (chunk sizes are
positive); it is mapped to the empty list here and is unused. -/
def pyRange (start stop step : Nat) : List Nat :=
  if step = 0 then [] else pyRangeGo stop step (stop - start) start

/-- Telegram message length limit (main.py line 134). -/
def MAX_MESSAGE_LENGTH : Nat := 4096

/-- Embedding of chunk_message (main.py lines 136-138): the comprehension
[text[i:i + chunk_size] for i in range(0, len(text), chunk_size)], where the
Python slice text[i:i + n] is take n after drop i. -/
def chunk_message (text : List Char) (chunk_size : Nat) : List (List Char) :=
  (pyRange 0 text.length chunk_size).map (fun i => (text.drop i).take chunk_size)

/-- Characters Python str.strip removes: ASCII whitespace. -/
def isPySpace (c : Char) : Bool :=
  c = ' ' || c = '\t' || c = '\n' || c = '\r' || c = '\x0b' || c = '\x0c'

/-- Embedding of Python str.strip(): removes leading and trailing
whitespace. -/
def pyStrip (s : List Char) : List Char :=
  ((s.dropWhile isPySpace).reverse.dropWhile isPySpace).reverse

/-- Helper for Python str.split(sep): locates the first occurrence of the
(non-empty) separator, returning the part before it and the part after it,
or none when the separator does not occur. -/
def breakOnSep (sep : List Char) : List Char → Option (List Char × List Char)
  | [] => none
  | c :: rest =>
      if sep.isPrefixOf (c :: rest) then some ([], (c :: rest).drop sep.length)
      else
        match breakOnSep sep rest with
        | none => none
        | some (pre, post) => some (c :: pre, post)

/-- Fuel-driven core of Python str.split(sep) for a non-empty separator.
A fuel of at least the length of the string is always sufficient, since each
separator occurrence consumes at least one character. -/
def pySplitGo (sep : List Char) : Nat → List Char → List (List Char)
  | 0, s => [s]
  | fuel + 1, s =>
      match breakOnSep sep s with
      | none => [s]
      | some (pre, post) => pre :: pySplitGo sep fuel post

/-- Embedding of Python s.split(sep) for a non-empty separator. -/
def pySplit (sep s : List Char) : List (List Char) :=
  pySplitGo sep s.length s

/-- Ollama model records as used by the bot (model.model attribute). -/
structure ModelInfo where
  model : List Char
deriving DecidableEq

/-- Refusal text sent by private_chat_only (main.py line 50). -/
def privateOnlyMsg : List Char :=
  "This command is only available in private chat.".toList

/-- Header and list text sent by pull_model when models exist
(main.py lines 103-104). -/
def downloadedModelsText (models : List ModelInfo) : List Char :=
  "Downloaded Models:\n".toList
    ++ List.intercalate "\n".toList (models.map (fun m => "- ".toList ++ m.model))

/-- Text sent by pull_model when no models are loaded (main.py line 106). -/
def noModelsMsg : List Char :=
  "There are currently no loaded models.".toList

/-- Prompt sent by pull_model asking for a model name (main.py line 109). -/
def askModelMsg : List Char :=
  "Tell me what new model you want to load into Ollama (type /cancel to quit).".toList

/-- Download-started text sent by store_model (main.py line 119). -/
def downloadingMsg (model : List Char) : List Char :=
  "⬇️ ".toList ++ model ++ " model is now being downloaded.".toList

/-- Success text sent by store_model (main.py line 121). -/
def pullSuccessMsg : List Char :=
  "✅ The model is now available in Ollama.".toList

/-- Failure text sent by store_model, naming the model (main.py line 124). -/
def pullFailMsg (model : List Char) : List Char :=
  "❌ Failed to pull model: ".toList ++ model
    ++ ". Please check the model name and try again.".toList

/-- Confirmation text sent by handle_model_selection (main.py line 91). -/
def activeSetMsg (model : List Char) : List Char :=
  "✅ Active model set to: *".toList ++ model ++ "*".toList

/-- Prompt sent by set_model_command (main.py line 80). -/
def selectPromptMsg : List Char :=
  "Select a model to use for chat:".toList

/-- Label of the extra keyboard button of set_model_command (main.py line 77). -/
def loadNewModelLabel : List Char := "Load a new model".toList

/-- Callback data of the extra keyboard button (main.py line 77). -/
def pullmodelData : List Char := "pullmodel".toList

/-- Callback-data tag for model selection buttons (main.py lines 71 and 87). -/
def setmodelTag : List Char := "setmodel:".toList

/-- Default model used by echo when the user has no selection
(main.py line 144). -/
def llama3 : List Char := "llama3".toList

/-- Apology text substituted by echo on backend failure (main.py line 156). -/
def apologyMsg : List Char :=
  "Sorry, I couldn\x27t get a response from the model.".toList

/-- Embedding of main.py lines 41-44: update.message, falling back to the
callback query message when the update has no message. -/
def effectiveMessage (upd : Update) : Option Message :=
  match upd.message with
  | some m => some m
  | none =>
      match upd.callbackQuery with
      | some q => q.message
      | none => none

/-- Embedding of private_chat_only (main.py lines 38-53): returns whether the
check passed together with the messages it sent. -/
def private_chat_only (upd : Update) : Bool × List (List Char) :=
  match effectiveMessage upd with
  | none => (false, [])
  | some msg =>
      if msg.chatType ≠ ChatType.privateChat then (false, [privateOnlyMsg])
      else (true, [])

/-- Embedding of pull_model (main.py lines 93-111).  The result of the
ollama_client.list() call is an oracle argument; note the call is not guarded
by any try/except in the source, so a failing call makes the handler raise. -/
def pull_model (upd : Update) (listResult : Except Unit (List ModelInfo)) :
    List (List Char) × Outcome :=
  match private_chat_only upd with
  | (false, msgs) => (msgs, Outcome.returned END)
  | (true, msgs) =>
      match listResult with
      | Except.error _ => (msgs, Outcome.raised)
      | Except.ok models =>
          let text := if models ≠ [] then downloadedModelsText models else noModelsMsg
          (msgs ++ [text, askModelMsg], Outcome.returned ASKING_MODEL)

/-- Embedding of set_model_command (main.py lines 55-80).  Returns the sent
messages, the inline keyboard buttons as (label, callback data) pairs, and the
outcome.  The listing call is unguarded, so its failure raises; the final
reply is sent through update.message, which raises if the update carries no
message. -/
def set_model_command (upd : Update) (listResult : Except Unit (List ModelInfo))
    (st : SessionStore) :
    List (List Char) × List (List Char × List Char) × Outcome :=
  match private_chat_only upd with
  | (false, msgs) => (msgs, [], Outcome.completed)
  | (true, msgs) =>
      match listResult with
      | Except.error _ => (msgs, [], Outcome.raised)
      | Except.ok models =>
          let active := st upd.effectiveUser
          let keyboard :=
            models.map (fun m =>
              (m.model ++ " ".toList
                 ++ (if some m.model = active then "✅".toList else []),
               setmodelTag ++ m.model))
            ++ [(loadNewModelLabel, pullmodelData)]
          match upd.message with
          | none => (msgs, keyboard, Outcome.raised)
          | some _ => (msgs ++ [selectPromptMsg], keyboard, Outcome.completed)

/-- Embedding of handle_model_selection (main.py lines 82-91): when the data
starts with the setmodel tag, the stored model is data.split("setmodel:")[1]
and the issuing user's selection is overwritten. -/
def handle_model_selection (q : CallbackQuery) (st : SessionStore) :
    List (List Char) × SessionStore :=
  if setmodelTag.isPrefixOf q.data then
    let model := (pySplit setmodelTag q.data).getD 1 []
    ([activeSetMsg model],
     fun u => if u = q.from_user then some model else st u)
  else ([], st)

/-- Embedding of store_model (main.py lines 113-127).  The text of the incoming
message is stripped, the download-started message is sent, then
ollama_client.pull is called (an oracle argument); any exception is caught and
turns into the failure message and a return to ASKING_MODEL. -/
def store_model (pullOp : List Char → Except Unit Unit) (text : List Char)
    (st : SessionStore) : List (List Char) × Outcome × SessionStore :=
  let model := pyStrip text
  match pullOp model with
  | Except.ok _ =>
      ([downloadingMsg model, pullSuccessMsg], Outcome.returned END, st)
  | Except.error _ =>
      ([downloadingMsg model, pullFailMsg model], Outcome.returned ASKING_MODEL, st)

/-- Embedding of echo (main.py lines 140-160).  The model is the user's stored
selection, defaulting to llama3; the backend chat call is an oracle argument;
any exception is caught and replaced by the apology text; the reply is sent in
chunks.  The returned list is the sequence of messages sent. -/
def echo (chatOp : List Char → List Char → Except Unit (List Char))
    (u : UserId) (text : List Char) (st : SessionStore) : List (List Char) :=
  let model := match st u with | some m => m | none => llama3
  let reply :=
    match chatOp model text with
    | Except.ok r => r
    | Except.error _ => apologyMsg
  chunk_message reply MAX_MESSAGE_LENGTH

/-- Joining the chunks emitted from position start reproduces the suffix of s
from start, for any sufficient fuel. -/
theorem pyRangeGo_join (s : List Char) (n : Nat) (hn : 1 ≤ n) :
    ∀ (fuel start : Nat), s.length - start ≤ fuel →
      ((pyRangeGo s.length n fuel start).map (fun i => (s.drop i).take n)).join
        = s.drop start := by
  intro fuel
  induction fuel with
  | zero =>
      intro start h
      have hge : s.length ≤ start := by omega
      simp [pyRangeGo, List.drop_eq_nil_of_le hge]
  | succ fuel ih =>
      intro start h
      by_cases hlt : start < s.length
      · have hrec := ih (start + n) (by omega)
        simp only [pyRangeGo, if_pos hlt, List.map_cons, List.join_cons, hrec]
        exact List.drop_take_append_drop s start n
      · have hge : s.length ≤ start := by omega
        simp [pyRangeGo, if_neg hlt, List.drop_eq_nil_of_le hge]

/-- Number of chunk start positions emitted from start is the ceiling of the
remaining length divided by n, for any sufficient fuel. -/
theorem pyRangeGo_length (L n : Nat) (hn : 1 ≤ n) :
    ∀ (fuel start : Nat), L - start ≤ fuel →
      (pyRangeGo L n fuel start).length = (L - start + n - 1) / n := by
  intro fuel
  induction fuel with
  | zero =>
      intro start h
      have h0 : L - start = 0 := by omega
      have : (L - start + n - 1) / n = 0 := by
        rw [h0]
        exact Nat.div_eq_of_lt (by omega)
      simp [pyRangeGo, this]
  | succ fuel ih =>
      intro start h
      by_cases hlt : start < L
      · have hrec := ih (start + n) (by omega)
        simp only [pyRangeGo, if_pos hlt, List.length_cons, hrec]
        have h1 : L - start + n - 1 = (L - start - 1) + n := by omega
        rw [h1, Nat.add_div_right _ (by omega)]
        by_cases hc : n ≤ L - start
        · have : L - (start + n) + n - 1 = L - start - 1 := by omega
          rw [this]
        · have h2 : L - (start + n) + n - 1 = n - 1 := by omega
          rw [h2, Nat.div_eq_of_lt (by omega), Nat.div_eq_of_lt (by omega)]
      · have h0 : L - start = 0 := by omega
        have : (L - start + n - 1) / n = 0 := by
          rw [h0]
          exact Nat.div_eq_of_lt (by omega)
        simp [pyRangeGo, if_neg hlt, this]

/-- Every chunk except possibly the last has length exactly n. -/
theorem pyRangeGo_full (s : List Char) (n : Nat) (hn : 1 ≤ n) :
    ∀ (fuel start : Nat), s.length - start ≤ fuel →
      ∀ i, i + 1 < ((pyRangeGo s.length n fuel start).map
          (fun j => (s.drop j).take n)).length →
        (((pyRangeGo s.length n fuel start).map
          (fun j => (s.drop j).take n)).getD i []).length = n := by
  intro fuel
  induction fuel with
  | zero =>
      intro start h i hi
      simp [pyRangeGo] at hi
  | succ fuel ih =>
      intro start h i hi
      by_cases hlt : start < s.length
      · simp only [pyRangeGo, if_pos hlt, List.map_cons, List.length_cons] at hi ⊢
        cases i with
        | zero =>
            have hrest : pyRangeGo s.length n fuel (start + n) ≠ [] := by
              intro hnil
              rw [hnil] at hi
              simp at hi
            have hfull : start + n < s.length := by
              by_contra hge
              have hge2 : ¬ start + n < s.length := hge
              cases fuel with
              | zero => exact hrest rfl
              | succ fuel => exact hrest (by simp [pyRangeGo, if_neg hge2])
            simp only [List.getD_cons_zero]
            rw [List.length_take, List.length_drop]
            omega
        | succ i =>
            simp only [List.getD_cons_succ]
            exact ih (start + n) (by omega) i (by simpa using hi)
      · simp [pyRangeGo, if_neg hlt] at hi

/-- Chunking the empty text yields no chunks, for every chunk size. -/
theorem chunk_message_nil (n : Nat) : chunk_message [] n = [] := by
  unfold chunk_message pyRange
  split <;> simp [pyRangeGo]

/-- A non-empty text no longer than the chunk size is a single chunk. -/
theorem chunk_message_single (s : List Char) (n : Nat) (hne : s ≠ [])
    (hn : 1 ≤ n) (hlen : s.length ≤ n) : chunk_message s n = [s] := by
  have hL : 1 ≤ s.length := List.length_pos.mpr hne
  unfold chunk_message pyRange
  rw [if_neg (by omega)]
  have hfuel : s.length - 0 = (s.length - 1) + 1 := by omega
  rw [hfuel]
  have htail : pyRangeGo s.length n (s.length - 1) n = [] := by
    have hnlt : ¬ n < s.length := Nat.not_lt.mpr hlen
    cases hf : s.length - 1 with
    | zero => simp [pyRangeGo]
    | succ k => simp [pyRangeGo, hnlt]
  simp [pyRangeGo, if_pos (by omega : 0 < s.length), htail,
    List.take_of_length_le hlen]

/-- C1: chunking is lossless, order-preserving and size-bounded: for every
string s and chunk size n of at least 1, the in-order concatenation of
chunk_message s n is exactly s, every chunk has length at most n, and every
chunk other than the last has length exactly n. -/
theorem C1_chunking_lossless (s : List Char) (n : Nat) (hn : 1 ≤ n) :
    (chunk_message s n).join = s
    ∧ (∀ c ∈ chunk_message s n, c.length ≤ n)
    ∧ (∀ i, i + 1 < (chunk_message s n).length →
        ((chunk_message s n).getD i []).length = n) := by
  have hrange : chunk_message s n
      = (pyRangeGo s.length n (s.length - 0) 0).map (fun i => (s.drop i).take n) := by
    unfold chunk_message pyRange
    rw [if_neg (by omega)]
  refine ⟨?_, ?_, ?_⟩
  · rw [hrange, pyRangeGo_join s n hn (s.length - 0) 0 (by omega)]
    exact List.drop_zero s
  · intro c hc
    rw [hrange] at hc
    obtain ⟨i, _, hci⟩ := List.mem_map.mp hc
    rw [← hci, List.length_take]
    omega
  · intro i hi
    rw [hrange] at hi ⊢
    exact pyRangeGo_full s n hn (s.length - 0) 0 (by omega) i hi

/-- Witness for C1 at a concrete string and chunk size. -/
theorem C1_chunking_lossless_witness :
    (chunk_message "hello".toList 3).join = "hello".toList
    ∧ (∀ c ∈ chunk_message "hello".toList 3, c.length ≤ 3)
    ∧ (∀ i, i + 1 < (chunk_message "hello".toList 3).length →
        ((chunk_message "hello".toList 3).getD i []).length = 3) :=
  C1_chunking_lossless "hello".toList 3 (by omega)

/-- C10: for chunk size n of at least 1 the number of chunks is the ceiling of
the length divided by n, chunking the empty string yields no chunks, and a
relay whose backend reply is the empty string sends no messages at all. -/
theorem C10_chunk_count (s : List Char) (n : Nat) (hn : 1 ≤ n)
    (chatOp : List Char → List Char → Except Unit (List Char))
    (u : UserId) (text : List Char) (st : SessionStore)
    (hempty : ∀ m t, chatOp m t = Except.ok []) :
    (chunk_message s n).length = (s.length + n - 1) / n
    ∧ chunk_message [] n = []
    ∧ echo chatOp u text st = [] := by
  refine ⟨?_, ?_, ?_⟩
  · have hrange : chunk_message s n
        = (pyRangeGo s.length n (s.length - 0) 0).map
            (fun i => (s.drop i).take n) := by
      unfold chunk_message pyRange
      rw [if_neg (by omega)]
    rw [hrange, List.length_map,
      pyRangeGo_length s.length n hn (s.length - 0) 0 (by omega), Nat.sub_zero]
  · exact chunk_message_nil n
  · simp only [echo, hempty]
    exact chunk_message_nil MAX_MESSAGE_LENGTH

/-- Witness for C10 at a concrete string, chunk size and backend oracle. -/
theorem C10_chunk_count_witness :
    (chunk_message "hello".toList 2).length = ("hello".toList.length + 2 - 1) / 2
    ∧ chunk_message [] 2 = []
    ∧ echo (fun _ _ => Except.ok []) 0 "hi".toList (fun _ => none) = [] :=
  C10_chunk_count "hello".toList 2 (by omega) (fun _ _ => Except.ok []) 0
    "hi".toList (fun _ => none) (fun _ _ => rfl)

/-- C3: when the backend inference call fails, the relay output is exactly the
single apology message and the error does not escape the handler (echo is a
total function into sent messages). -/
theorem C3_backend_failure_apology
    (chatOp : List Char → List Char → Except Unit (List Char))
    (u : UserId) (text : List Char) (st : SessionStore)
    (hfail : ∀ m t, chatOp m t = Except.error ()) :
    echo chatOp u text st = [apologyMsg] := by
  simp only [echo, hfail]
  exact chunk_message_single apologyMsg MAX_MESSAGE_LENGTH (by decide) (by decide)
    (by decide)

/-- Witness for C3 at a concrete user, text and failing backend oracle. -/
theorem C3_backend_failure_apology_witness :
    echo (fun _ _ => Except.error ()) 0 "hi".toList (fun _ => none)
      = [apologyMsg] :=
  C3_backend_failure_apology (fun _ _ => Except.error ()) 0 "hi".toList
    (fun _ => none) (fun _ _ => rfl)

/-- Counterexample to C2 as stated: entering the pull flow from a private chat
with a failing listing call raises out of the handler, sends no message at all
(in particular no conversational error message and no model-name prompt), and
does not return the AWAITING_MODEL_NAME state. -/
theorem C2_listfail_cex :
    pull_model ⟨some ⟨ChatType.privateChat, []⟩, none, 0⟩ (Except.error ())
      = ([], Outcome.raised)
    ∧ Outcome.raised ≠ Outcome.returned ASKING_MODEL := by
  refine ⟨rfl, ?_⟩
  intro h
  cases h

/-- Amended C2: for every pull-flow entry attempt from a private conversation,
if the listing call fails then the exception propagates out of the handler: no
message is sent, the user is not prompted for a model name, and the handler
does not return AWAITING_MODEL_NAME. -/
theorem C2_listfail_raises (upd : Update) (msg : Message) (e : Unit)
    (h : effectiveMessage upd = some msg)
    (h2 : msg.chatType = ChatType.privateChat) :
    pull_model upd (Except.error e) = ([], Outcome.raised) := by
  have hpriv : private_chat_only upd = (true, []) := by
    unfold private_chat_only
    rw [h]
    simp [h2]
  simp [pull_model, hpriv]

/-- Witness for the amended C2 at a concrete private-chat update. -/
theorem C2_listfail_raises_witness :
    pull_model ⟨some ⟨ChatType.privateChat, []⟩, none, 5⟩ (Except.error ())
      = ([], Outcome.raised) :=
  C2_listfail_raises ⟨some ⟨ChatType.privateChat, []⟩, none, 5⟩
    ⟨ChatType.privateChat, []⟩ () rfl rfl

/-- C5: invoking the pull-flow entry or the model-listing command from a
non-private conversation sends exactly the fixed refusal message, performs no
listing (the result is the same for every listing oracle), ends the
conversation instead of entering AWAITING_MODEL_NAME, and leaves the session
store untouched (neither handler writes it). -/
theorem C5_nonprivate_refusal (upd : Update) (msg : Message)
    (listResult : Except Unit (List ModelInfo)) (st : SessionStore)
    (h : effectiveMessage upd = some msg)
    (h2 : msg.chatType ≠ ChatType.privateChat) :
    pull_model upd listResult = ([privateOnlyMsg], Outcome.returned END)
    ∧ set_model_command upd listResult st
        = ([privateOnlyMsg], [], Outcome.completed) := by
  have hpriv : private_chat_only upd = (false, [privateOnlyMsg]) := by
    unfold private_chat_only
    rw [h]
    simp [h2]
  constructor
  · simp [pull_model, hpriv]
  · simp [set_model_command, hpriv]

/-- Witness for C5 at a concrete group-chat update. -/
theorem C5_nonprivate_refusal_witness :
    pull_model ⟨some ⟨ChatType.groupChat, []⟩, none, 0⟩ (Except.ok [])
        = ([privateOnlyMsg], Outcome.returned END)
    ∧ set_model_command ⟨some ⟨ChatType.groupChat, []⟩, none, 0⟩ (Except.ok [])
        (fun _ => none) = ([privateOnlyMsg], [], Outcome.completed) :=
  C5_nonprivate_refusal ⟨some ⟨ChatType.groupChat, []⟩, none, 0⟩
    ⟨ChatType.groupChat, []⟩ (Except.ok []) (fun _ => none) rfl (by decide)

/-- C6: relay model resolution: with no prior selection the backend call uses
the fixed default model llama3; with a prior selection it uses exactly the
selected model. -/
theorem C6_model_resolution
    (chatOp : List Char → List Char → Except Unit (List Char))
    (u : UserId) (text : List Char) (st : SessionStore) :
    (st u = none → echo chatOp u text st
       = chunk_message
           (match chatOp llama3 text with
            | Except.ok r => r
            | Except.error _ => apologyMsg) MAX_MESSAGE_LENGTH)
    ∧ (∀ m, st u = some m → echo chatOp u text st
       = chunk_message
           (match chatOp m text with
            | Except.ok r => r
            | Except.error _ => apologyMsg) MAX_MESSAGE_LENGTH) := by
  constructor
  · intro h
    simp only [echo, h]
  · intro m h
    simp only [echo, h]

/-- Witness for C6 at a concrete user with no selection. -/
theorem C6_model_resolution_witness :
    echo (fun _ _ => Except.ok "hi".toList) 0 "hello".toList (fun _ => none)
      = chunk_message
          (match (fun (_ _ : List Char) => Except.ok (ε := Unit) "hi".toList)
              llama3 "hello".toList with
           | Except.ok r => r
           | Except.error _ => apologyMsg) MAX_MESSAGE_LENGTH :=
  (C6_model_resolution (fun _ _ => Except.ok "hi".toList) 0 "hello".toList
    (fun _ => none)).1 rfl

/-- C4: a failed pull reports the failure in a message that contains the
offending model name, returns to AWAITING_MODEL_NAME with the session store
unchanged, and does not exit silently (messages are sent). -/
theorem C4_pull_failure_retry (pullOp : List Char → Except Unit Unit)
    (text : List Char) (st : SessionStore) (e : Unit)
    (h : pullOp (pyStrip text) = Except.error e) :
    store_model pullOp text st
      = ([downloadingMsg (pyStrip text), pullFailMsg (pyStrip text)],
         Outcome.returned ASKING_MODEL, st)
    ∧ (∃ pre post, pullFailMsg (pyStrip text)
        = pre ++ pyStrip text ++ post) := by
  constructor
  · simp only [store_model, h]
  · exact ⟨"❌ Failed to pull model: ".toList,
      ". Please check the model name and try again.".toList, rfl⟩

/-- Witness for C4 at a concrete failing model name. -/
theorem C4_pull_failure_retry_witness :
    store_model (fun _ => Except.error ()) " badmodel ".toList (fun _ => none)
      = ([downloadingMsg (pyStrip " badmodel ".toList),
          pullFailMsg (pyStrip " badmodel ".toList)],
         Outcome.returned ASKING_MODEL, fun _ => none)
    ∧ (∃ pre post, pullFailMsg (pyStrip " badmodel ".toList)
        = pre ++ pyStrip " badmodel ".toList ++ post) :=
  C4_pull_failure_retry (fun _ => Except.error ()) " badmodel ".toList
    (fun _ => none) () rfl

/-- C7: the text supplied while awaiting a model name is interpreted only
through its whitespace-trimmed form, the pull oracle is consulted exactly at
that trimmed name, and a text that is empty after trimming is handled exactly
like the literal empty name, with no separate rejection. -/
theorem C7_trimmed_model_name (pullOp pullOp2 : List Char → Except Unit Unit)
    (t1 t2 text : List Char) (st : SessionStore) :
    (pyStrip t1 = pyStrip t2 →
       store_model pullOp t1 st = store_model pullOp t2 st)
    ∧ (pullOp (pyStrip text) = pullOp2 (pyStrip text) →
       store_model pullOp text st = store_model pullOp2 text st)
    ∧ (pyStrip text = [] →
       store_model pullOp text st = store_model pullOp [] st) := by
  refine ⟨?_, ?_, ?_⟩
  · intro h
    simp only [store_model, h]
  · intro h
    simp only [store_model, h]
  · intro h
    have h0 : pyStrip ([] : List Char) = [] := rfl
    simp only [store_model, h, h0]

/-- Witness for C7 at concrete whitespace-only inputs. -/
theorem C7_trimmed_model_name_witness :
    store_model (fun _ => Except.ok ()) " phi3 ".toList (fun _ => none)
        = store_model (fun _ => Except.ok ()) "phi3".toList (fun _ => none)
    ∧ store_model (fun _ => Except.ok ()) "  ".toList (fun _ => none)
        = store_model (fun _ => Except.ok ()) [] (fun _ => none) :=
  ⟨(C7_trimmed_model_name (fun _ => Except.ok ()) (fun _ => Except.ok ())
      " phi3 ".toList "phi3".toList [] (fun _ => none)).1 (by decide),
   (C7_trimmed_model_name (fun _ => Except.ok ()) (fun _ => Except.ok ())
      [] [] "  ".toList (fun _ => none)).2.2 (by decide)⟩

/-- C8: a successful pull leaves the per-user selection map exactly as it was
(store_model never writes the session store). -/
theorem C8_pull_success_frame (pullOp : List Char → Except Unit Unit)
    (text : List Char) (st : SessionStore)
    (h : pullOp (pyStrip text) = Except.ok ()) :
    (store_model pullOp text st).2.2 = st := by
  simp only [store_model, h]

/-- Witness for C8 at a concrete successful pull. -/
theorem C8_pull_success_frame_witness :
    (store_model (fun _ => Except.ok ()) "phi3".toList (fun _ => none)).2.2
      = fun _ => none :=
  C8_pull_success_frame (fun _ => Except.ok ()) "phi3".toList (fun _ => none) rfl

/-- Boolean list prefix test agrees with existence of a completing suffix. -/
theorem isPrefixOf_exists (l : List Char) :
    ∀ s : List Char, l.isPrefixOf s = true ↔ ∃ t, s = l ++ t := by
  induction l with
  | nil =>
      intro s
      simp [List.isPrefixOf]
  | cons c cs ih =>
      intro s
      cases s with
      | nil =>
          simp [List.isPrefixOf]
      | cons d ds =>
          simp only [List.isPrefixOf, Bool.and_eq_true, beq_iff_eq, ih,
            List.cons_append, List.cons.injEq]
          constructor
          · rintro ⟨hcd, t, ht⟩
            exact ⟨t, hcd.symm, ht⟩
          · rintro ⟨t, hdc, ht⟩
            exact ⟨hdc.symm, t, ht⟩

/-- A list is a prefix of itself followed by anything. -/
theorem isPrefixOf_append (l t : List Char) : l.isPrefixOf (l ++ t) = true :=
  (isPrefixOf_exists l (l ++ t)).mpr ⟨t, rfl⟩

/-- For a non-empty separator, the first occurrence in sep ++ m is at the
front, with remainder m. -/
theorem breakOnSep_append (sep m : List Char) (hsep : sep ≠ []) :
    breakOnSep sep (sep ++ m) = some ([], m) := by
  cases sep with
  | nil => exact absurd rfl hsep
  | cons c cs =>
      have hp : (c :: cs).isPrefixOf ((c :: cs) ++ m) = true :=
        isPrefixOf_append (c :: cs) m
      simp only [List.cons_append] at hp
      simp [breakOnSep, hp, List.drop_left]

/-- A successful separator search yields a decomposition of the string. -/
theorem breakOnSep_eq_some (sep : List Char) :
    ∀ (s pre post : List Char), breakOnSep sep s = some (pre, post) →
      s = pre ++ sep ++ post := by
  intro s
  induction s with
  | nil =>
      intro pre post h
      simp [breakOnSep] at h
  | cons c rest ih =>
      intro pre post h
      by_cases hp : sep.isPrefixOf (c :: rest) = true
      · rw [breakOnSep, if_pos hp] at h
        obtain ⟨t, ht⟩ := (isPrefixOf_exists sep (c :: rest)).mp hp
        injection h with h
        injection h with h1 h2
        subst h1
        rw [ht, List.drop_left] at h2
        subst h2
        simpa using ht
      · rw [breakOnSep, if_neg hp] at h
        cases hb : breakOnSep sep rest with
        | none => rw [hb] at h; cases h
        | some pp =>
            obtain ⟨pre2, post2⟩ := pp
            rw [hb] at h
            injection h with h
            rw [Prod.mk.injEq] at h
            obtain ⟨h1, h2⟩ := h
            subst h1
            subst h2
            have hrest := ih pre2 post2 hb
            simp [hrest]

/-- When the separator never occurs, Python split returns the whole string,
regardless of fuel. -/
theorem pySplitGo_notin (sep s : List Char) (h : breakOnSep sep s = none) :
    ∀ fuel, pySplitGo sep fuel s = [s] := by
  intro fuel
  cases fuel <;> simp [pySplitGo, h]

/-- Splitting sep ++ m on sep, when sep does not occur in m, gives exactly the
empty piece followed by m. -/
theorem pySplit_tag_of_notin (sep m : List Char) (hsep : sep ≠ [])
    (h : breakOnSep sep m = none) : pySplit sep (sep ++ m) = [[], m] := by
  have hpos : 1 ≤ sep.length := List.length_pos.mpr hsep
  have hlen : (sep ++ m).length = (sep.length + m.length - 1) + 1 := by
    rw [List.length_append]
    omega
  unfold pySplit
  rw [hlen]
  simp [pySplitGo, breakOnSep_append sep m hsep, pySplitGo_notin sep m h]

/-- A string with no decomposition around the separator has no separator
occurrence. -/
theorem breakOnSep_none_of_not_decomp (sep m : List Char)
    (h : ¬ ∃ pre post, m = pre ++ sep ++ post) : breakOnSep sep m = none := by
  cases hb : breakOnSep sep m with
  | none => rfl
  | some pp =>
      obtain ⟨pre, post⟩ := pp
      exact absurd ⟨pre, post, breakOnSep_eq_some sep m pre post hb⟩ h

/-- C9: processing a selection callback whose data is the setmodel tag followed
by a model name m that does not contain the tag stores exactly m as the
issuing user's active model; and because the handler splits the data on the
tag and takes the second piece, there is a model name containing the tag whose
stored value differs from the name carried by the button. -/
theorem C9_selection_roundtrip :
    (∀ (u : UserId) (m : List Char) (st : SessionStore) (om : Option Message),
       (¬ ∃ pre post, m = pre ++ setmodelTag ++ post) →
       (handle_model_selection ⟨om, setmodelTag ++ m, u⟩ st).2 u = some m)
    ∧ (∃ m : List Char, (∃ pre post, m = pre ++ setmodelTag ++ post)
        ∧ (handle_model_selection ⟨none, setmodelTag ++ m, 0⟩
             (fun _ => none)).2 0 ≠ some m) := by
  constructor
  · intro u m st om h
    have hsep : setmodelTag ≠ [] := by decide
    have hb := breakOnSep_none_of_not_decomp setmodelTag m h
    have hsplit := pySplit_tag_of_notin setmodelTag m hsep hb
    have hp : setmodelTag.isPrefixOf (setmodelTag ++ m) = true :=
      isPrefixOf_append setmodelTag m
    simp [handle_model_selection, hp, hsplit]
  · refine ⟨"xsetmodel:y".toList, ⟨"x".toList, "y".toList, by decide⟩, ?_⟩
    decide

/-- Witness for the universal part of C9 at a concrete tag-free model name. -/
theorem C9_selection_roundtrip_witness :
    (handle_model_selection ⟨none, setmodelTag ++ "mistral".toList, 7⟩
        (fun _ => none)).2 7 = some "mistral".toList :=
  C9_selection_roundtrip.1 7 "mistral".toList (fun _ => none) none
    (by
      rintro ⟨pre, post, hEq⟩
      have hlen := congrArg List.length hEq
      rw [List.length_append, List.length_append] at hlen
      have h9 : setmodelTag.length = 9 := rfl
      have h7 : ("mistral".toList).length = 7 := rfl
      rw [h9, h7] at hlen
      omega)
